import Mathlib

/-!
Verification of the QR symbol assembly pipeline (`qrcode/draw.py`).

The module grid is embedded as a total function `Int → Int → Int` carrying the
module values, with the grid size passed explicitly where the code indexes the
underlying numpy array.  Cell writes follow numpy indexing semantics: an index
outside `[-n, n)` is an `IndexError` (modelled as `none`), and a negative index
in `[-n, -1]` silently wraps to `index + n`.  Python `dict`s of coordinate →
value are embedded as association lists in insertion order; overlaying applies
the entries left to right, so a later entry for the same key wins, which agrees
with the final content of the Python dict.
-/

set_option linter.unusedVariables false

set_option maxRecDepth 100000

/-- Python `range(start, stop, step)` over integers (empty for `step = 0`). -/
def pyRange (start stop step : Int) : List Int :=
  if step = 0 then []
  else
    let count : Nat :=
      if 0 < step then ((stop - start + step - 1).toNat) / step.toNat
      else ((start - stop + (-step) - 1).toNat) / (-step).toNat
    (List.range count).map (fun i => start + step * (i : Int))

/-- Module value constants from `draw.py`. -/
def WHITE : Int := 0

def BLACK : Int := 1

def DEFAULT_VALUE : Int := -1

def DUMMY_VALUE : Int := -2

/-- A coordinate `(row, col)` as used by the Python code. -/
abbrev Coordinate := Int × Int

/-- `CoordinateValueMap`: a Python dict from coordinate to module value,
    embedded as an association list in insertion order. -/
abbrev CoordinateValueMap := List (Coordinate × Int)

/-- The module grid: a total assignment of values; the size is tracked
    separately wherever the code indexes the numpy array. -/
abbrev Grid := Int → Int → Int

/-- An external mask predicate `mask(row, col)` (collaborator interface). -/
abbrev Mask := Int → Int → Int

/-- Pointwise functional update of a grid cell. -/
def updateCell (g : Grid) (i j v : Int) : Grid :=
  fun x y => if x = i ∧ y = j then v else g x y

/-- One numpy cell assignment `grid[i][j] = value` on an `n × n` array:
    `IndexError` (`none`) outside `[-n, n)`, silent wrap-around for negative
    indexes in `[-n, -1]`. -/
def setCell (n : Int) (g : Grid) (c : Coordinate) (v : Int) : Option Grid :=
  if c.1 < -n ∨ n ≤ c.1 ∨ c.2 < -n ∨ n ≤ c.2 then none
  else
    some (updateCell g (if c.1 < 0 then c.1 + n else c.1)
      (if c.2 < 0 then c.2 + n else c.2) v)

/-- `override_grid(grid, indexes)` from `draw.py`: write every entry of the
    map into the grid, in insertion order, with numpy indexing semantics. -/
def override_grid (n : Int) (g : Grid) (m : CoordinateValueMap) : Option Grid :=
  match m with
  | [] => some g
  | (c, v) :: rest => (setCell n g c v).bind fun g' => override_grid n g' rest

/-- The value a Python dict (as insertion-ordered association list) holds at a
    key: the last entry for that key wins. -/
def lookupLast (m : CoordinateValueMap) (c : Coordinate) : Option Int :=
  match m with
  | [] => none
  | e :: rest =>
    match lookupLast rest c with
    | some v => some v
    | none => if e.1 = c then some e.2 else none

/-- `get_timing_pattern(grid_size)` from `draw.py`. -/
def get_timing_pattern (grid_size : Int) : CoordinateValueMap :=
  let fixed_row : Int := 6
  let fixed_col : Int := 6
  let timing_pattern_row_black := (pyRange 0 grid_size 2).map (fun x => ((fixed_row, x), BLACK))
  let timing_pattern_row_white := (pyRange 1 grid_size 2).map (fun x => ((fixed_row, x), WHITE))
  let timing_pattern_col_black := (pyRange 0 grid_size 2).map (fun x => ((x, fixed_col), BLACK))
  let timing_pattern_col_white := (pyRange 1 grid_size 2).map (fun x => ((x, fixed_col), WHITE))
  timing_pattern_row_black ++ timing_pattern_row_white ++
    timing_pattern_col_black ++ timing_pattern_col_white

/-- `create_row(fixed_row_index, col_start, col_end, value)` from `draw.py`. -/
def create_row (fixed_row_index col_start col_end value : Int) : CoordinateValueMap :=
  (pyRange col_start col_end 1).map (fun col => ((fixed_row_index, col), value))

/-- `create_col(fixed_col_index, row_start, row_end, value)` from `draw.py`. -/
def create_col (fixed_col_index row_start row_end value : Int) : CoordinateValueMap :=
  (pyRange row_start row_end 1).map (fun row => ((row, fixed_col_index), value))

/-- `finder_pattern_generator(row, col, grid_size)` from `draw.py`: offsets
    `r, c ∈ range(-1, 8)`, skipping (`continue`) offsets that leave the grid. -/
def finder_pattern_generator (row col grid_size : Int) : CoordinateValueMap :=
  ((pyRange (-1) 8 1).filter
      (fun r => !(decide (row + r ≤ -1) || decide (grid_size ≤ row + r)))).flatMap
    (fun r =>
      ((pyRange (-1) 8 1).filter
          (fun c => !(decide (col + c ≤ -1) || decide (grid_size ≤ col + c)))).map
        (fun c =>
          ((row + r, col + c),
            if (0 ≤ r ∧ r ≤ 6 ∧ (c = 0 ∨ c = 6)) ∨ (0 ≤ c ∧ c ≤ 6 ∧ (r = 0 ∨ r = 6)) ∨
                (2 ≤ r ∧ r ≤ 4 ∧ 2 ≤ c ∧ c ≤ 4) then BLACK else WHITE)))

/-- `get_finder_patterns(finder_pattern_generator, grid_size)` from `draw.py`. -/
def get_finder_patterns (fpg : Int → Int → Int → CoordinateValueMap)
    (grid_size : Int) : CoordinateValueMap :=
  let top_left := fpg 0 0 grid_size
  let bottom_left := fpg (grid_size - 7) 0 grid_size
  let top_right := fpg 0 (grid_size - 7) grid_size
  top_left ++ bottom_left ++ top_right

/-- `get_seperator_pattern(grid_size)` from `draw.py`. -/
def get_seperator_pattern (grid_size : Int) : CoordinateValueMap :=
  let length : Int := 8
  let length_index : Int := length - 1
  let top_left_row := create_row length_index 0 length WHITE
  let top_left_col := create_col length_index 0 length WHITE
  let top_right_row := create_row length_index (grid_size - length) grid_size WHITE
  let top_right_col := create_col (grid_size - length) 0 length WHITE
  let bottom_right_row := create_row (grid_size - length) 0 length WHITE
  let bottom_right_col := create_col length_index (grid_size - length) grid_size WHITE
  top_left_row ++ top_left_col ++ top_right_row ++ top_right_col ++
    bottom_right_row ++ bottom_right_col

/-- `add_quiet_zone(grid)` from `draw.py`: border the `grid_size × grid_size`
    grid with one ring of zeros (White), shifting the original to offset
    `(1, 1)`. -/
def add_quiet_zone (grid_size : Int) (g : Grid) : Grid :=
  fun i j =>
    if i = 0 ∨ j = 0 ∨ i = grid_size + 1 ∨ j = grid_size + 1 then 0
    else g (i - 1) (j - 1)

/-- `iterate_over_grid(grid_size)` from `draw.py`: the zig-zag coordinate
    order.  Note the starting row is the literal `20` in the source, and the
    column pair shifts one left when its right column is `≤ 6`. -/
def iterate_over_grid (grid_size : Int) : List Coordinate :=
  (((pyRange (grid_size - 1) 0 (-2)).foldl
    (fun (st : List Coordinate × Bool) column =>
      let (result, up) := st
      let column := if column ≤ 6 then column - 1 else column
      let row : Int := if up then 20 else 0
      let inner := (List.range grid_size.toNat).foldl
        (fun (st2 : List Coordinate × Int) _ =>
          let (acc, row) := st2
          (acc ++ [(row, column), (row, column - 1)], if up then row - 1 else row + 1))
        ([], row)
      (result ++ inner.1, !up))
    ([], true))).1

/-- `get_codeword_placement(binary_str, grid, grid_iterator)` from `draw.py`:
    walk the iterator, placing the next bit at each cell still holding `-1`;
    stop when the bitstring is exhausted. -/
def get_codeword_placement (binary_str : List Int) (grid : Grid) :
    List Coordinate → CoordinateValueMap
  | [] => []
  | (row, col) :: rest =>
    match binary_str with
    | [] => []
    | b :: bs =>
      if grid row col = -1 then
        ((row, col), b) :: get_codeword_placement bs grid rest
      else
        get_codeword_placement (b :: bs) grid rest

/-- `get_dummy_format_information(grid_size)` from `draw.py`: reserve row 8 and
    column 8 near the finder patterns with the placeholder value, then force
    the dark module `(grid_size - 8, 8)` to Black (a dict update of an already
    present key, hence appended last so that it wins). -/
def get_dummy_format_information (grid_size : Int) : CoordinateValueMap :=
  (((pyRange 0 grid_size 1).filter
      (fun col => decide (col ≤ 7) || decide (grid_size - 8 ≤ col))).map
    (fun col => (((8 : Int), col), DUMMY_VALUE))) ++
  (((pyRange 0 grid_size 1).filter
      (fun row => decide (row ≤ 8) || decide (grid_size - 8 ≤ row))).map
    (fun row => ((row, (8 : Int)), DUMMY_VALUE))) ++
  [((grid_size - 8, 8), BLACK)]

/-- `apply_mask(mask, data)` from `draw.py`: XOR the mask predicate against
    each placed bit, keeping the coordinates. -/
def apply_mask (mask : Mask) (data : CoordinateValueMap) : CoordinateValueMap :=
  data.map (fun e => ((e.1.1, e.1.2), Int.xor (mask e.1.1 e.1.2) e.2))

/-- `get_version_information(version)` from `draw.py`: empty overlay for
    `version ≤ 6`, `NotImplementedError` (modelled as `none`) otherwise. -/
def get_version_information (version : Int) : Option CoordinateValueMap :=
  if version ≤ 6 then some [] else none

/-- The error correction levels (`qrcode.custom_types.ECL`). -/
inductive ECL where
  | L
  | M
  | Q
  | H
deriving DecidableEq, Repr

/-- Modelled from the spec: `convert_to_grid_size(version)` lives in
    `qrcode.utils`, which is not part of the given sources; the spec fixes it
    as the pure mapping `grid_size = 4 · version + 17`. -/
def convert_to_grid_size (version : Int) : Int :=
  4 * version + 17

/-- Modelled from the spec: `convert_to_version(grid_size)`, the inverse pure
    mapping `version = (grid_size - 17) / 4`. -/
def convert_to_version (grid_size : Int) : Int :=
  (grid_size - 17) / 4

/-- Bits (most significant first) to the natural number they denote. -/
def bitsToNat (bits : List Nat) : Nat :=
  bits.foldl (fun a b => 2 * a + b) 0

/-- The `width` low bits of `n`, most significant first. -/
def natToBits (n width : Nat) : List Nat :=
  (List.range width).map (fun i => n >>> (width - 1 - i) &&& 1)

/-- Number of binary digits of `n`, with explicit fuel (`fuel ≥ n` suffices). -/
def bitLenAux : Nat → Nat → Nat
  | 0, _ => 0
  | fuel + 1, n => if n = 0 then 0 else bitLenAux fuel (n / 2) + 1

/-- Number of binary digits of `n` (`0` for `n = 0`). -/
def bitLen (n : Nat) : Nat :=
  bitLenAux n n

/-- Polynomial remainder over GF(2) with both polynomials packed into naturals
    (bit `i` = coefficient of `x^i`); `fuel` bounds the reduction steps. -/
def gf2mod (fuel : Nat) (a g : Nat) : Nat :=
  match fuel with
  | 0 => a
  | fuel + 1 =>
    if 2 ^ (bitLen g - 1) ≤ a then
      gf2mod fuel (a ^^^ (g <<< (bitLen a - bitLen g))) g
    else a

/-- Modelled from the spec: `qrcode.reedsolomon.encode(data, ecclen, genpoly)`
    is not part of the given sources; the spec fixes it as the systematic
    polynomial encoder over GF(2): append `ecclen` parity bits holding the
    remainder of `data · x^ecclen` modulo the generator polynomial. -/
def rs_encode (data : List Nat) (ecclen : Nat) (genpoly : List Nat) : List Nat :=
  let d := bitsToNat data
  let g := bitsToNat genpoly
  let shifted := d <<< ecclen
  let remainder := gf2mod shifted shifted g
  natToBits (shifted ^^^ remainder) (data.length + ecclen)

/-- The number of binary digits of `d` as printed by Python's `f"{d:05b}"`:
    at least 5, more when `d` needs them. -/
def binWidth5 (d : Nat) : Nat :=
  max 5 (if d = 0 then 1 else bitLen d)

/-- `get_format_information(ecl, mask_reference)` from `draw.py`: compose the
    5-bit `(ECL indicator, mask id)` payload, BCH-encode it with the fixed
    generator polynomial, and XOR with the fixed constant `21522`. -/
def get_format_information (ecl : ECL) (mask_reference : Nat) : Nat :=
  let ecl_binary_indicator : Nat :=
    match ecl with
    | ECL.L => 1
    | ECL.M => 0
    | ECL.Q => 3
    | ECL.H => 2
  let genpoly : List Nat := [1, 0, 1, 0, 0, 1, 1, 0, 1, 1, 1]
  let mask : Nat := 21522
  let data := ecl_binary_indicator <<< 3 ||| mask_reference
  let data_list := natToBits data (binWidth5 data)
  let format_info := bitsToNat (rs_encode data_list 10 genpoly)
  format_info ^^^ mask

/-- The observable final state of a `draw` run: the finished grid (with quiet
    zone) and the mask-selection state `best_mask_ref, lowest_penalty_points`. -/
structure DrawResult where
  grid : Grid
  gridSize : Int
  bestMaskRef : Nat
  lowestPenaltyPoints : Int

/-- The mask scoring loop of `draw` (`for mask_reference, mask in
    enumerate(masks): ...`).  Each candidate's masked code words are overlaid
    in place onto the running grid (numpy mutation: `masked_grid` aliases
    `grid`); the per-candidate format information is computed and then the
    `continue` statement skips the rest of the body, so the penalty scoring
    and the running-minimum update never execute. -/
def mask_scoring_loop (n : Int) (fmtF : ECL → Nat → Nat) (ecl : ECL)
    (codeword_placement : CoordinateValueMap) :
    List (Nat × Mask) → Grid × Nat × Int → Option (Grid × Nat × Int)
  | [], st => some st
  | (mask_reference, mask) :: rest, (grid, best, lowest) =>
    (override_grid n grid (apply_mask mask codeword_placement)).bind fun masked_grid =>
      let format_information := fmtF ecl mask_reference
      mask_scoring_loop n fmtF ecl codeword_placement rest (masked_grid, best, lowest)

/-- The fixed-pattern prefix of `draw` (`draw.py` lines 240–255): create the
    all-`-1` grid and overlay, in source order, the format-information
    reservation, the timing pattern, the finder patterns, the separator and
    the (empty, for `version ≤ 6`) version information. -/
def fixed_pattern_grid (version : Int) : Option Grid :=
  (get_version_information version).bind fun version_information =>
  (override_grid (convert_to_grid_size version) (fun _ _ => -1)
      (get_dummy_format_information (convert_to_grid_size version))).bind fun g1 =>
  (override_grid (convert_to_grid_size version) g1
      (get_timing_pattern (convert_to_grid_size version))).bind fun g2 =>
  (override_grid (convert_to_grid_size version) g2
      (get_finder_patterns finder_pattern_generator (convert_to_grid_size version))).bind fun g3 =>
  (override_grid (convert_to_grid_size version) g3
      (get_seperator_pattern (convert_to_grid_size version))).bind fun g4 =>
  override_grid (convert_to_grid_size version) g4 version_information

/-- `draw(binary_string, version, error_correction_level)` from `draw.py`,
    parameterised over its external collaborators: the format-information
    function (`get_format_information` in the source), the mask predicates
    (`get_masks()`) and the scorer (`get_mask_penalty_points`).  Returns the
    run's observable final state, `none` on a raised error. -/
def drawAux (fmtF : ECL → Nat → Nat) (masks : List Mask)
    (get_mask_penalty_points : Grid → Int) (binary_string : List Int)
    (version : Int) (error_correction_level : ECL) : Option DrawResult :=
  (fixed_pattern_grid version).bind fun g5 =>
  (override_grid (convert_to_grid_size version) g5
      (get_codeword_placement binary_string g5
        (iterate_over_grid (convert_to_grid_size version)))).bind fun g6 =>
  (mask_scoring_loop (convert_to_grid_size version) fmtF error_correction_level
      (get_codeword_placement binary_string g5
        (iterate_over_grid (convert_to_grid_size version)))
      masks.enum (g6, 0, 100000)).bind fun st =>
  (masks[st.2.1]?).bind fun best_mask =>
  (override_grid (convert_to_grid_size version) st.1
      (apply_mask best_mask
        (get_codeword_placement binary_string g5
          (iterate_over_grid (convert_to_grid_size version))))).bind fun g7 =>
  some { grid := add_quiet_zone (convert_to_grid_size version) g7,
         gridSize := convert_to_grid_size version + 2,
         bestMaskRef := st.2.1, lowestPenaltyPoints := st.2.2 }

/-- `draw` with its actual format-information function. -/
def draw (masks : List Mask) (get_mask_penalty_points : Grid → Int)
    (binary_string : List Int) (version : Int)
    (error_correction_level : ECL) : Option DrawResult :=
  drawAux get_format_information masks get_mask_penalty_points binary_string
    version error_correction_level

/-- A coordinate lies inside `[0, n) × [0, n)`. -/
abbrev InRangeC (n : Int) (c : Coordinate) : Prop :=
  0 ≤ c.1 ∧ c.1 < n ∧ 0 ≤ c.2 ∧ c.2 < n

/-- The extensional effect of overlaying a map onto a grid: the map's value at
    the cell (last entry wins) when present, the old cell otherwise. -/
def dictOverlay (m : CoordinateValueMap) (g : Grid) : Grid :=
  fun x y =>
    match lookupLast m (x, y) with
    | some v => v
    | none => g x y

theorem lookupLast_cons (e : Coordinate × Int) (rest : CoordinateValueMap)
    (c : Coordinate) :
    lookupLast (e :: rest) c =
      match lookupLast rest c with
      | some v => some v
      | none => if e.1 = c then some e.2 else none := rfl

theorem override_grid_eval (n : Int) (m : CoordinateValueMap) :
    ∀ g : Grid, (∀ e ∈ m, InRangeC n e.1) →
      override_grid n g m = some (dictOverlay m g) := by
  induction m with
  | nil =>
    intro g _
    rfl
  | cons e rest ih =>
    intro g h
    obtain ⟨hx0, hxn, hy0, hyn⟩ := h e (List.mem_cons_self e rest)
    have hsingle : setCell n g e.1 e.2 = some (updateCell g e.1.1 e.1.2 e.2) := by
      unfold setCell
      rw [if_neg (by push_neg; refine ⟨by omega, by omega, by omega, by omega⟩),
        if_neg (not_lt.mpr hx0), if_neg (not_lt.mpr hy0)]
    show (setCell n g e.1 e.2).bind (fun g' => override_grid n g' rest) = _
    rw [hsingle]
    show override_grid n (updateCell g e.1.1 e.1.2 e.2) rest = _
    rw [ih (updateCell g e.1.1 e.1.2 e.2) (fun e' he' => h e' (List.mem_cons_of_mem e he'))]
    refine congrArg some (funext fun x => funext fun y => ?_)
    unfold dictOverlay
    rw [lookupLast_cons]
    cases hrest : lookupLast rest (x, y) with
    | some v => rfl
    | none =>
      show updateCell g e.1.1 e.1.2 e.2 x y = _
      unfold updateCell
      by_cases hk : e.1 = (x, y)
      · rw [if_pos hk, if_pos ⟨(congrArg Prod.fst hk).symm, (congrArg Prod.snd hk).symm⟩]
      · rw [if_neg hk, if_neg (fun hc => hk (Prod.ext hc.1.symm hc.2.symm))]

theorem apply_mask_cons (mk : Mask) (e : Coordinate × Int) (rest : CoordinateValueMap) :
    apply_mask mk (e :: rest) =
      ((e.1.1, e.1.2), Int.xor (mk e.1.1 e.1.2) e.2) :: apply_mask mk rest := rfl

theorem lookupLast_apply_mask (mk : Mask) (m : CoordinateValueMap) (c : Coordinate) :
    lookupLast (apply_mask mk m) c =
      (lookupLast m c).map (fun v => Int.xor (mk c.1 c.2) v) := by
  induction m with
  | nil => rfl
  | cons e rest ih =>
    rw [apply_mask_cons, lookupLast_cons, lookupLast_cons, ih]
    cases hrest : lookupLast rest c with
    | some v => rfl
    | none =>
      simp only [Option.map_none]
      by_cases hk : e.1 = c
      · have hk' : ((e.1.1, e.1.2) : Coordinate) = c := hk
        rw [if_pos hk, if_pos hk']
        subst hk
        rfl
      · have hk' : ¬(((e.1.1, e.1.2) : Coordinate) = c) := hk
        rw [if_neg hk, if_neg hk']
        rfl

theorem apply_mask_inRange (n : Int) (mk : Mask) (m : CoordinateValueMap)
    (h : ∀ e ∈ m, InRangeC n e.1) :
    ∀ e ∈ apply_mask mk m, InRangeC n e.1 := by
  intro e he
  obtain ⟨a, ha, rfl⟩ := List.mem_map.mp he
  exact h a ha

theorem get_codeword_placement_mem (g : Grid) :
    ∀ (it : List Coordinate) (bits : List Int) (e : Coordinate × Int),
      e ∈ get_codeword_placement bits g it → e.1 ∈ it ∧ g e.1.1 e.1.2 = -1 := by
  intro it
  induction it with
  | nil =>
    intro bits e he
    rw [show get_codeword_placement bits g [] = [] from rfl] at he
    cases he
  | cons c rest ih =>
    intro bits e he
    obtain ⟨row, col⟩ := c
    match bits with
    | [] =>
      rw [show get_codeword_placement [] g ((row, col) :: rest) = [] from rfl] at he
      cases he
    | b :: bs =>
      rw [show get_codeword_placement (b :: bs) g ((row, col) :: rest) =
          (if g row col = -1 then ((row, col), b) :: get_codeword_placement bs g rest
           else get_codeword_placement (b :: bs) g rest) from rfl] at he
      by_cases hfree : g row col = -1
      · rw [if_pos hfree] at he
        rcases List.mem_cons.mp he with h1 | h2
        · subst h1; exact ⟨List.mem_cons_self _ _, hfree⟩
        · obtain ⟨h3, h4⟩ := ih bs e h2
          exact ⟨List.mem_cons_of_mem _ h3, h4⟩
      · rw [if_neg hfree] at he
        obtain ⟨h3, h4⟩ := ih (b :: bs) e he
        exact ⟨List.mem_cons_of_mem _ h3, h4⟩

theorem lookupLast_apply_mask_none (mk : Mask) (m : CoordinateValueMap)
    (c : Coordinate) (h : lookupLast m c = none) :
    lookupLast (apply_mask mk m) c = none := by
  rw [lookupLast_apply_mask, h]
  rfl

/-- The scoring loop always succeeds on an in-range data region, never touches
    `best_mask_ref` or `lowest_penalty_points` (the `continue` statement skips
    their update), and leaves every cell outside the data region unchanged. -/
theorem mask_scoring_loop_eval (n : Int) (fmtF : ECL → Nat → Nat) (ecl : ECL)
    (p : CoordinateValueMap) (hp : ∀ e ∈ p, InRangeC n e.1) :
    ∀ (ems : List (Nat × Mask)) (st : Grid × Nat × Int),
      ∃ g', mask_scoring_loop n fmtF ecl p ems st = some (g', st.2.1, st.2.2) ∧
        ∀ x y, lookupLast p (x, y) = none → g' x y = st.1 x y := by
  intro ems
  induction ems with
  | nil =>
    intro st
    exact ⟨st.1, rfl, fun _ _ _ => rfl⟩
  | cons em rest ih =>
    intro st
    obtain ⟨ref, mk⟩ := em
    obtain ⟨g, b, l⟩ := st
    have hstep : mask_scoring_loop n fmtF ecl p ((ref, mk) :: rest) (g, b, l) =
        mask_scoring_loop n fmtF ecl p rest (dictOverlay (apply_mask mk p) g, b, l) := by
      show (override_grid n g (apply_mask mk p)).bind _ = _
      rw [override_grid_eval n (apply_mask mk p) g (apply_mask_inRange n mk p hp)]
      rfl
    obtain ⟨g', heq, hpt⟩ := ih (dictOverlay (apply_mask mk p) g, b, l)
    refine ⟨g', hstep.trans heq, fun x y hnone => ?_⟩
    rw [hpt x y hnone]
    show dictOverlay (apply_mask mk p) g x y = g x y
    unfold dictOverlay
    rw [lookupLast_apply_mask_none mk p (x, y) hnone]

/-- Each candidate fully overwrites the data region, so after the loop the
    grid holds exactly the last candidate's masked data overlaid on the grid
    the loop started from, regardless of the earlier candidates' writes. -/
theorem mask_scoring_loop_last (n : Int) (fmtF : ECL → Nat → Nat) (ecl : ECL)
    (p : CoordinateValueMap) (hp : ∀ e ∈ p, InRangeC n e.1) :
    ∀ (ems : List (Nat × Mask)) (ref : Nat) (mk : Mask) (st : Grid × Nat × Int),
      mask_scoring_loop n fmtF ecl p (ems ++ [(ref, mk)]) st =
        some (dictOverlay (apply_mask mk p) st.1, st.2.1, st.2.2) := by
  intro ems
  induction ems with
  | nil =>
    intro ref mk st
    obtain ⟨g, b, l⟩ := st
    show (override_grid n g (apply_mask mk p)).bind _ = _
    rw [override_grid_eval n (apply_mask mk p) g (apply_mask_inRange n mk p hp)]
    rfl
  | cons em rest ih =>
    intro ref mk st
    obtain ⟨ref0, mk0⟩ := em
    obtain ⟨g, b, l⟩ := st
    show (override_grid n g (apply_mask mk0 p)).bind _ = _
    rw [override_grid_eval n (apply_mask mk0 p) g (apply_mask_inRange n mk0 p hp)]
    show mask_scoring_loop n fmtF ecl p (rest ++ [(ref, mk)])
        (dictOverlay (apply_mask mk0 p) g, b, l) = _
    rw [ih ref mk (dictOverlay (apply_mask mk0 p) g, b, l)]
    refine congrArg some (congrArg (fun z => (z, b, l))
      (funext fun x => funext fun y => ?_))
    show dictOverlay (apply_mask mk p) (dictOverlay (apply_mask mk0 p) g) x y =
      dictOverlay (apply_mask mk p) g x y
    unfold dictOverlay
    cases hlast : lookupLast (apply_mask mk p) (x, y) with
    | some v => rfl
    | none =>
      have hnone : lookupLast p (x, y) = none := by
        rw [lookupLast_apply_mask] at hlast
        exact Option.map_eq_none.mp hlast
      rw [lookupLast_apply_mask_none mk0 p (x, y) hnone]

/-- The grid produced by the fixed-pattern passes of `draw` for version 1,
    written as the extensional overlay chain in the source's pass order. -/
def fixedGrid1 : Grid :=
  dictOverlay (get_seperator_pattern 21)
    (dictOverlay (get_finder_patterns finder_pattern_generator 21)
      (dictOverlay (get_timing_pattern 21)
        (dictOverlay (get_dummy_format_information 21) fun _ _ => -1)))

theorem fixed_pattern_grid_one : fixed_pattern_grid 1 = some fixedGrid1 := by
  unfold fixed_pattern_grid
  rw [show get_version_information 1 = some [] from rfl, Option.some_bind]
  rw [show convert_to_grid_size 1 = (21 : Int) from rfl]
  rw [override_grid_eval 21 (get_dummy_format_information 21) _ (by decide),
    Option.some_bind]
  rw [override_grid_eval 21 (get_timing_pattern 21) _ (by decide), Option.some_bind]
  rw [override_grid_eval 21 (get_finder_patterns finder_pattern_generator 21) _
    (by decide), Option.some_bind]
  rw [override_grid_eval 21 (get_seperator_pattern 21) _ (by decide), Option.some_bind]
  rfl

theorem lookupLast_eq_some_mem (m : CoordinateValueMap) (c : Coordinate) (v : Int)
    (h : lookupLast m c = some v) : (c, v) ∈ m := by
  induction m with
  | nil => cases h
  | cons e rest ih =>
    rw [lookupLast_cons] at h
    cases hrest : lookupLast rest c with
    | some w =>
      rw [hrest] at h
      cases h
      exact List.mem_cons_of_mem e (ih hrest)
    | none =>
      rw [hrest] at h
      by_cases hk : e.1 = c
      · rw [if_pos hk] at h
        cases h
        have : e = (c, e.2) := Prod.ext hk rfl
        rw [← this]
        exact List.mem_cons_self e rest
      · rw [if_neg hk] at h
        cases h

/-- A cell whose fixed-pattern value is not `-1` receives no code word. -/
theorem placement_lookup_none (bits : List Int) (g : Grid) (it : List Coordinate)
    (c : Coordinate) (h : g c.1 c.2 ≠ -1) :
    lookupLast (get_codeword_placement bits g it) c = none := by
  cases hl : lookupLast (get_codeword_placement bits g it) c with
  | none => rfl
  | some v =>
    exact absurd
      (get_codeword_placement_mem g it bits (c, v) (lookupLast_eq_some_mem _ _ _ hl)).2 h

/-- The data region of a version-1 run of `draw`: the code word placement
    computed from the fixed-pattern grid and the zig-zag order. -/
def placement1 (bits : List Int) : CoordinateValueMap :=
  get_codeword_placement bits fixedGrid1 (iterate_over_grid 21)

theorem placement1_inRange (bits : List Int) :
    ∀ e ∈ placement1 bits, InRangeC 21 e.1 := by
  have hiter : ∀ c ∈ iterate_over_grid 21, InRangeC 21 c := by decide
  intro e he
  exact hiter e.1
    (get_codeword_placement_mem fixedGrid1 (iterate_over_grid 21) bits e he).1

/-- The shape of every version-1 run of `drawAux`: it succeeds, it commits
    `best_mask_ref = 0` with the untouched sentinel penalty `100000`, and every
    cell outside the data region still holds its fixed-pattern value. -/
theorem drawAux_run (fmtF : ECL → Nat → Nat) (masks : List Mask)
    (score : Grid → Int) (bits : List Int) (ecl : ECL) (m0 : Mask)
    (mrest : List Mask) (hmask : masks = m0 :: mrest) :
    ∃ gfin : Grid,
      drawAux fmtF masks score bits 1 ecl =
        some { grid := add_quiet_zone 21 gfin, gridSize := 23,
               bestMaskRef := 0, lowestPenaltyPoints := 100000 } ∧
      ∀ x y, lookupLast (placement1 bits) (x, y) = none → gfin x y = fixedGrid1 x y := by
  subst hmask
  have hp := placement1_inRange bits
  obtain ⟨g', hloop, hpt⟩ := mask_scoring_loop_eval 21 fmtF ecl (placement1 bits) hp
    ((m0 :: mrest).enum) (dictOverlay (placement1 bits) fixedGrid1, 0, 100000)
  refine ⟨dictOverlay (apply_mask m0 (placement1 bits)) g', ?_, ?_⟩
  · unfold drawAux
    rw [fixed_pattern_grid_one, Option.some_bind]
    beta_reduce
    rw [show convert_to_grid_size 1 = (21 : Int) from rfl]
    rw [show get_codeword_placement bits fixedGrid1 (iterate_over_grid 21) =
      placement1 bits from rfl]
    rw [override_grid_eval 21 (placement1 bits) fixedGrid1 hp, Option.some_bind]
    beta_reduce
    rw [hloop, Option.some_bind]
    beta_reduce
    rw [show ((g', (0 : Nat), (100000 : Int))).2.1 = (0 : Nat) from rfl,
      List.getElem?_cons_zero, Option.some_bind]
    beta_reduce
    rw [override_grid_eval 21 (apply_mask m0 (placement1 bits)) g'
      (apply_mask_inRange 21 m0 (placement1 bits) hp), Option.some_bind]
    beta_reduce
    rfl
  · intro x y hnone
    have h1 : dictOverlay (apply_mask m0 (placement1 bits)) g' x y = g' x y := by
      unfold dictOverlay
      rw [lookupLast_apply_mask_none m0 (placement1 bits) (x, y) hnone]
    have h2 : dictOverlay (placement1 bits) fixedGrid1 x y = fixedGrid1 x y := by
      unfold dictOverlay
      rw [hnone]
    rw [h1, hpt x y hnone]
    exact h2

theorem placement1_lookup_none (bits : List Int) (c : Coordinate)
    (h : fixedGrid1 c.1 c.2 ≠ -1) : lookupLast (placement1 bits) c = none :=
  placement_lookup_none bits fixedGrid1 (iterate_over_grid 21) c h

/-- The scoring loop is insensitive to the format-information function: its
    value is bound and then discarded by the `continue` statement. -/
theorem mask_scoring_loop_fmt_irrel (n : Int) (f g : ECL → Nat → Nat) (ecl : ECL)
    (p : CoordinateValueMap) :
    ∀ (ems : List (Nat × Mask)) (st : Grid × Nat × Int),
      mask_scoring_loop n f ecl p ems st = mask_scoring_loop n g ecl p ems st := by
  intro ems
  induction ems with
  | nil => intro st; rfl
  | cons em rest ih =>
    intro st
    obtain ⟨ref, mk⟩ := em
    obtain ⟨gr, b, l⟩ := st
    show (override_grid n gr (apply_mask mk p)).bind _ =
      (override_grid n gr (apply_mask mk p)).bind _
    exact congrArg (Option.bind _) (funext fun mg => ih (mg, b, l))

/-- C2: In every run of `draw`, the 15-bit format-information value computed
    per mask candidate is never written into the matrix before quiet-zone
    finalization: the run's entire observable outcome is identical whatever
    value the format-information function returns. -/
theorem C2_format_information_discarded (f g : ECL → Nat → Nat)
    (masks : List Mask) (score : Grid → Int) (bits : List Int)
    (version : Int) (ecl : ECL) :
    drawAux f masks score bits version ecl = drawAux g masks score bits version ecl := by
  unfold drawAux
  refine congrArg (Option.bind _) (funext fun g5 => ?_)
  refine congrArg (Option.bind _) (funext fun g6 => ?_)
  rw [mask_scoring_loop_fmt_irrel (convert_to_grid_size version) f g ecl
    (get_codeword_placement bits g5 (iterate_over_grid (convert_to_grid_size version)))
    masks.enum (g6, 0, 100000)]

/-- C8: `get_version_information` contributes an empty overlay for every
    version at most 6, and raises (`none`) for every version at least 7; in
    `draw` that error propagates, so no partial matrix is produced. -/
theorem C8_version_information_gate (v : Int) :
    (v ≤ 6 → get_version_information v = some []) ∧
    (7 ≤ v → get_version_information v = none ∧
      ∀ (masks : List Mask) (score : Grid → Int) (bits : List Int) (ecl : ECL),
        draw masks score bits v ecl = none) := by
  constructor
  · intro h
    unfold get_version_information
    rw [if_pos h]
  · intro h
    have hn : get_version_information v = none := by
      unfold get_version_information
      rw [if_neg (by omega)]
    refine ⟨hn, fun masks score bits ecl => ?_⟩
    unfold draw drawAux fixed_pattern_grid
    rw [hn]
    rfl

theorem C8_version_information_gate_witness :
    get_version_information 1 = some [] ∧ get_version_information 7 = none ∧
      draw [] (fun _ => 0) [] 7 ECL.L = none :=
  ⟨(C8_version_information_gate 1).1 (by decide),
   ((C8_version_information_gate 7).2 (by decide)).1,
   ((C8_version_information_gate 7).2 (by decide)).2 [] (fun _ => 0) [] ECL.L⟩

/-- `override_grid` fails exactly when some entry's coordinate triggers a numpy
    `IndexError`, i.e. has a component outside `[-n, n)`. -/
theorem override_grid_none_iff (n : Int) (m : CoordinateValueMap) :
    ∀ g : Grid, (override_grid n g m = none ↔
      ∃ e ∈ m, e.1.1 < -n ∨ n ≤ e.1.1 ∨ e.1.2 < -n ∨ n ≤ e.1.2) := by
  induction m with
  | nil =>
    intro g
    constructor
    · intro h; cases h
    · rintro ⟨e, he, _⟩; cases he
  | cons e rest ih =>
    intro g
    by_cases hc : e.1.1 < -n ∨ n ≤ e.1.1 ∨ e.1.2 < -n ∨ n ≤ e.1.2
    · have hset : setCell n g e.1 e.2 = none := by
        unfold setCell
        rw [if_pos hc]
      constructor
      · intro _
        exact ⟨e, List.mem_cons_self e rest, hc⟩
      · intro _
        show (setCell n g e.1 e.2).bind _ = none
        rw [hset]
        rfl
    · have hset : setCell n g e.1 e.2 = some (updateCell g
          (if e.1.1 < 0 then e.1.1 + n else e.1.1)
          (if e.1.2 < 0 then e.1.2 + n else e.1.2) e.2) := by
        unfold setCell
        rw [if_neg hc]
      constructor
      · intro h
        show ∃ e' ∈ e :: rest, _
        rw [show override_grid n g (e :: rest) = (setCell n g e.1 e.2).bind
          (fun g' => override_grid n g' rest) from rfl, hset] at h
        obtain ⟨e', he', ho⟩ := (ih _).mp h
        exact ⟨e', List.mem_cons_of_mem e he', ho⟩
      · rintro ⟨e', he', ho⟩
        rcases List.mem_cons.mp he' with h1 | h2
        · subst h1; exact absurd ho hc
        · show (setCell n g e.1 e.2).bind _ = none
          rw [hset]
          show override_grid n _ rest = none
          exact (ih _).mpr ⟨e', h2, ho⟩

/-- C9 counterexample: `override_grid` on a 21×21 grid accepts the
    out-of-range coordinate `(-1, 0)` without any error and silently writes
    the value at the wrapped-around cell `(20, 0)`, leaving `(-1, 0)` (and
    every genuine cell other than `(20, 0)`) untouched. -/
theorem C9_counterexample :
    (override_grid 21 (fun _ _ => -1) [(((-1 : Int), (0 : Int)), 5)]).isSome = true ∧
    (override_grid 21 (fun _ _ => -1) [(((-1 : Int), (0 : Int)), 5)]).map
      (fun g => (g 20 0, g (-1) 0)) = some (5, -1) := by
  constructor
  · decide
  · decide

/-- C9 (amended): `override_grid` writes every in-range entry by direct
    overwrite and fails exactly on coordinates with a component outside
    `[-n, n)`; a negative component in `[-n, -1]` is not an error but is
    silently wrapped to `component + n`, Python-style, writing a different
    cell. -/
theorem C9_overlay_bounds (n : Int) (g : Grid) (m : CoordinateValueMap) :
    (override_grid n g m = none ↔
      ∃ e ∈ m, e.1.1 < -n ∨ n ≤ e.1.1 ∨ e.1.2 < -n ∨ n ≤ e.1.2) ∧
    ((∀ e ∈ m, InRangeC n e.1) → override_grid n g m = some (dictOverlay m g)) ∧
    (∀ i j v : Int, -n ≤ i → i < n → -n ≤ j → j < n →
      setCell n g (i, j) v = some (updateCell g (if i < 0 then i + n else i)
        (if j < 0 then j + n else j) v)) := by
  refine ⟨override_grid_none_iff n m g, override_grid_eval n m g, ?_⟩
  intro i j v h1 h2 h3 h4
  unfold setCell
  rw [if_neg (by push_neg; exact ⟨h1, h2, h3, h4⟩)]

theorem C9_overlay_bounds_witness :
    (override_grid 2 (fun _ _ => -1) [(((5 : Int), (0 : Int)), 1)] = none) ∧
    (override_grid 2 (fun _ _ => -1) [(((1 : Int), (0 : Int)), 1)] =
      some (dictOverlay [(((1 : Int), (0 : Int)), 1)] (fun _ _ => -1))) ∧
    (setCell 2 (fun _ _ => -1) (-1, 0) 7 =
      some (updateCell (fun _ _ => -1) (if (-1 : Int) < 0 then -1 + 2 else -1)
        (if (0 : Int) < 0 then 0 + 2 else 0) 7)) :=
  ⟨(C9_overlay_bounds 2 (fun _ _ => -1) _).1.mpr
      ⟨(((5 : Int), (0 : Int)), 1), by decide, by decide⟩,
   (C9_overlay_bounds 2 (fun _ _ => -1) _).2.1 (by decide),
   (C9_overlay_bounds 2 (fun _ _ => -1) []).2.2 (-1) 0 7 (by decide) (by decide)
     (by decide) (by decide)⟩

/-- C1 (code evaluation): in every version-1 run of `draw` with its 8 mask
    candidates, the committed mask id is 0 whatever the external scorer
    returns — the `continue` statement in the scoring loop skips the penalty
    computation and the running-minimum comparison, so no candidate is ever
    scored and the initial `best_mask_ref = 0` is committed; in particular a
    scorer valuing the candidates `[5,5,3,3,9,1,1,1]` does not make `draw`
    select mask id 5. -/
theorem C1_no_scoring_commits_mask_zero (masks : List Mask) (score : Grid → Int)
    (bits : List Int) (ecl : ECL) (hmask : masks.length = 8) :
    (draw masks score bits 1 ecl).map (fun r => r.bestMaskRef) = some 0 := by
  match masks, hmask with
  | m0 :: mrest, _ =>
    obtain ⟨gfin, heq, _⟩ := drawAux_run get_format_information (m0 :: mrest)
      score bits ecl m0 mrest rfl
    unfold draw
    rw [heq]
    rfl

theorem C1_no_scoring_commits_mask_zero_witness :
    ((List.replicate 8 ((fun _ _ => 0) : Mask)).length = 8) ∧
    (draw (List.replicate 8 ((fun _ _ => 0) : Mask)) (fun _ => 0) [1] 1 ECL.M).map
      (fun r => r.bestMaskRef) = some 0 :=
  ⟨rfl, C1_no_scoring_commits_mask_zero (List.replicate 8 ((fun _ _ => 0) : Mask))
    (fun _ => 0) [1] ECL.M rfl⟩

/-- C10: in every version-1 run of `draw`, the dark module `(13, 8)` is set to
    Black by the format-information reservation pass and no later pass touches
    it, so cell `(14, 9)` of the final bordered grid is Black. -/
theorem C10_dark_module_black (masks : List Mask) (score : Grid → Int)
    (bits : List Int) (ecl : ECL) (hmask : masks.length = 8) :
    (draw masks score bits 1 ecl).map (fun r => r.grid 14 9) = some BLACK := by
  match masks, hmask with
  | m0 :: mrest, _ =>
    obtain ⟨gfin, heq, hout⟩ := drawAux_run get_format_information (m0 :: mrest)
      score bits ecl m0 mrest rfl
    unfold draw
    rw [heq]
    show some (add_quiet_zone 21 gfin 14 9) = some BLACK
    have hq : add_quiet_zone 21 gfin 14 9 = gfin 13 8 := by
      unfold add_quiet_zone
      rw [if_neg (by push_neg; refine ⟨by omega, by omega, by omega, by omega⟩)]
      norm_num
    have hfix : gfin 13 8 = fixedGrid1 13 8 :=
      hout 13 8 (placement1_lookup_none bits (13, 8) (by decide))
    rw [hq, hfix]
    rw [show fixedGrid1 13 8 = BLACK from by decide]

theorem C10_dark_module_black_witness :
    ((List.replicate 8 ((fun _ _ => 0) : Mask)).length = 8) ∧
    (draw (List.replicate 8 ((fun _ _ => 0) : Mask)) (fun _ => 0) [1] 1 ECL.M).map
      (fun r => r.grid 14 9) = some BLACK :=
  ⟨rfl, C10_dark_module_black (List.replicate 8 ((fun _ _ => 0) : Mask))
    (fun _ => 0) [1] ECL.M rfl⟩

/-- C5 counterexample: `get_format_information(ECL.M, 5)` does not equal
    `0b001010011011100 = 5340`; that value is the BCH codeword before the
    final XOR with the fixed mask constant `21522`. -/
theorem C5_counterexample : get_format_information ECL.M 5 ≠ 5340 := by decide

/-- C5 (amended): `get_format_information(ECL.M, 5)` equals
    `0b100000011001110 = 16590`, the BCH codeword `0b001010011011100 = 5340`
    XORed with the fixed mask constant `21522`. -/
theorem C5_format_information_m5 :
    get_format_information ECL.M 5 = 16590 ∧
    16590 = bitsToNat [1, 0, 0, 0, 0, 0, 0, 1, 1, 0, 0, 1, 1, 1, 0] ∧
    bitsToNat (rs_encode (natToBits 5 5) 10 [1, 0, 1, 0, 0, 1, 1, 0, 1, 1, 1]) = 5340 ∧
    5340 = bitsToNat [0, 0, 1, 0, 1, 0, 0, 1, 1, 0, 1, 1, 1, 0, 0] ∧
    16590 = 5340 ^^^ 21522 := by
  refine ⟨by decide, by decide, by decide, by decide, by decide⟩

/-- C3 counterexample: with the code's actual pass order (the reservation is
    overlaid first, not last), the timing pattern overwrites the reserved cell
    `(8, 6)`, which therefore holds Black, not the placeholder. -/
theorem C3_counterexample :
    (fixed_pattern_grid 1).map (fun g => g 8 6) = some BLACK ∧ BLACK ≠ DUMMY_VALUE := by
  constructor
  · rw [fixed_pattern_grid_one]
    show some (fixedGrid1 8 6) = some BLACK
    rw [show fixedGrid1 8 6 = BLACK from by decide]
  · decide

/-- C3 (amended): in `draw`'s fixed passes the reservation is applied first
    among the fixed passes; afterwards every cell `(8, c)` for
    `c ∈ {0..7, 13..20} \ {6}` and `(r, 8)` for `r ∈ {0..8, 13..20} \ {6, 13}`
    holds the placeholder, while `(8, 6)` and `(6, 8)` hold the timing
    pattern's Black and `(13, 8)` holds the dark-module Black written by the
    reservation pass itself. -/
theorem C3_reserved_cells :
    fixed_pattern_grid 1 = some fixedGrid1 ∧
    (∀ c ∈ pyRange 0 21 1, (c ≤ 7 ∨ 13 ≤ c) → c ≠ 6 → fixedGrid1 8 c = DUMMY_VALUE) ∧
    (∀ r ∈ pyRange 0 21 1, (r ≤ 8 ∨ 13 ≤ r) → r ≠ 6 → r ≠ 13 →
      fixedGrid1 r 8 = DUMMY_VALUE) ∧
    fixedGrid1 8 6 = BLACK ∧ fixedGrid1 6 8 = BLACK ∧ fixedGrid1 13 8 = BLACK := by
  refine ⟨fixed_pattern_grid_one, by decide, by decide, by decide, by decide, by decide⟩

theorem C3_reserved_cells_witness :
    fixedGrid1 8 0 = DUMMY_VALUE ∧ fixedGrid1 14 8 = DUMMY_VALUE :=
  ⟨C3_reserved_cells.2.1 0 (by decide) (by decide) (by decide),
   C3_reserved_cells.2.2.1 14 (by decide) (by decide) (by decide) (by decide)⟩

/-- C6 counterexample: in a version-1 run with payload bit `1` and eight
    all-ones mask predicates, the scoring loop mutates the canonical matrix in
    place: cell `(20, 20)` holds `1` when the loop starts and `0` when it
    finishes, before any winning mask is committed — the candidates are not
    built on copies. -/
theorem C6_counterexample :
    dictOverlay (placement1 [1]) fixedGrid1 20 20 = 1 ∧
    (mask_scoring_loop 21 get_format_information ECL.M (placement1 [1])
        ((List.replicate 8 ((fun _ _ => 1) : Mask)).enum)
        (dictOverlay (placement1 [1]) fixedGrid1, 0, 100000)).map
      (fun st => st.1 20 20) = some 0 := by
  constructor
  · decide
  · decide

/-- C6 (amended): the candidate matrices are overlaid in place onto the
    canonical matrix, which is therefore mutated during scoring; but since
    every candidate overwrites the entire data region, the grid after the
    loop equals the last candidate's masked data overlaid onto the grid the
    loop started from — the content of each candidate matrix is unaffected by
    the earlier candidates' writes. -/
theorem C6_loop_overlay_in_place (n : Int) (fmtF : ECL → Nat → Nat) (ecl : ECL)
    (p : CoordinateValueMap) (hp : ∀ e ∈ p, InRangeC n e.1)
    (ems : List (Nat × Mask)) (ref : Nat) (mk : Mask) (st : Grid × Nat × Int) :
    mask_scoring_loop n fmtF ecl p (ems ++ [(ref, mk)]) st =
      some (dictOverlay (apply_mask mk p) st.1, st.2.1, st.2.2) :=
  mask_scoring_loop_last n fmtF ecl p hp ems ref mk st

theorem C6_loop_overlay_in_place_witness :
    mask_scoring_loop 21 get_format_information ECL.M [(((20 : Int), (20 : Int)), 1)]
        ([] ++ [(0, ((fun _ _ => 1) : Mask))]) ((fun _ _ => -1), 0, 100000) =
      some (dictOverlay (apply_mask ((fun _ _ => 1) : Mask)
        [(((20 : Int), (20 : Int)), 1)]) (fun _ _ => -1), 0, 100000) :=
  C6_loop_overlay_in_place 21 get_format_information ECL.M
    [(((20 : Int), (20 : Int)), 1)] (by decide) [] 0 ((fun _ _ => 1) : Mask)
    ((fun _ _ => -1), 0, 100000)

/-- C7 counterexample: `finder_pattern_generator` assigns a value (White) at
    offset `(7, 7)` from the top-left corner, an offset outside the claimed
    window `[-1, 7)` (Python `range(-1, 7)`): the window actually extends to
    offset 7 on the high sides as well. -/
theorem C7_counterexample :
    lookupLast (finder_pattern_generator 0 0 21) (7, 7) = some WHITE ∧
    ¬ ((7 : Int) ∈ pyRange (-1) 7 1) := by
  constructor
  · decide
  · decide

/-- C7 (amended): for each of the three finder corners, the generator assigns
    values exactly at offsets `r, c ∈ [-1, 8)` clipped to grid bounds, a cell
    being Black iff it lies on the outer ring (`r ∈ {0,6}` and `0 ≤ c ≤ 6`, or
    `c ∈ {0,6}` and `0 ≤ r ≤ 6`) or in the inner 3×3 core
    (`2 ≤ r ≤ 4` and `2 ≤ c ≤ 4`), otherwise White. -/
theorem C7_finder_window :
    ∀ corner ∈ [((0 : Int), (0 : Int)), (14, 0), (0, 14)],
      (∀ e ∈ finder_pattern_generator corner.1 corner.2 21,
        ∃ r ∈ pyRange (-1) 8 1, ∃ c ∈ pyRange (-1) 8 1,
          e.1 = (corner.1 + r, corner.2 + c)) ∧
      (∀ r ∈ pyRange (-1) 8 1, ∀ c ∈ pyRange (-1) 8 1,
        0 ≤ corner.1 + r → corner.1 + r < 21 → 0 ≤ corner.2 + c → corner.2 + c < 21 →
          lookupLast (finder_pattern_generator corner.1 corner.2 21)
              (corner.1 + r, corner.2 + c) =
            some (if (((r = 0 ∨ r = 6) ∧ 0 ≤ c ∧ c ≤ 6) ∨
                ((c = 0 ∨ c = 6) ∧ 0 ≤ r ∧ r ≤ 6) ∨
                (2 ≤ r ∧ r ≤ 4 ∧ 2 ≤ c ∧ c ≤ 4)) then BLACK else WHITE)) := by
  decide

theorem C7_finder_window_witness :
    lookupLast (finder_pattern_generator 0 0 21) ((0 : Int) + 7, (0 : Int) + 7) =
      some (if ((((7 : Int) = 0 ∨ (7 : Int) = 6) ∧ 0 ≤ (7 : Int) ∧ (7 : Int) ≤ 6) ∨
          (((7 : Int) = 0 ∨ (7 : Int) = 6) ∧ 0 ≤ (7 : Int) ∧ (7 : Int) ≤ 6) ∨
          (2 ≤ (7 : Int) ∧ (7 : Int) ≤ 4 ∧ 2 ≤ (7 : Int) ∧ (7 : Int) ≤ 4))
        then BLACK else WHITE) :=
  (C7_finder_window ((0 : Int), (0 : Int)) (by decide)).2 7 (by decide) 7 (by decide)
    (by decide) (by decide) (by decide) (by decide)


/-- The coordinates of `iterate_over_grid 21` encoded as `row * 21 + col`. -/
def zigzagKeys : List Nat :=
  (iterate_over_grid 21).map (fun p => (p.1 * 21 + p.2).toNat)

/-- The cell keys of all 21×21 cells outside the timing column 6, ascending. -/
def targetKeys : List Nat :=
  (List.range 441).filter (fun k => decide (k % 21 ≠ 6))

set_option maxHeartbeats 4000000 in
theorem zigzagKeys_sorted_eq : List.insertionSort (· ≤ ·) zigzagKeys = targetKeys := by
  decide

theorem zigzagKeys_perm : zigzagKeys.Perm targetKeys :=
  zigzagKeys_sorted_eq ▸ (List.perm_insertionSort (· ≤ ·) zigzagKeys).symm

theorem targetKeys_nodup : targetKeys.Nodup :=
  List.Nodup.filter _ (List.nodup_range 441)

theorem iterate_over_grid_inRange :
    ∀ p ∈ iterate_over_grid 21, InRangeC 21 p ∧ p.2 ≠ 6 := by decide

/-- C4 counterexample: `iterate_over_grid 21` enumerates 420 coordinates, not
    `21 × 21 = 441`: the timing column 6 is skipped entirely, so the
    enumeration cannot cover all grid cells. -/
theorem C4_counterexample :
    (iterate_over_grid 21).length = 420 ∧
    ¬ ((iterate_over_grid 21).length = 21 * 21) := by
  refine ⟨by decide, by decide⟩

/-- C4 (amended): `iterate_over_grid 21` enumerates exactly 420 coordinates,
    pairwise distinct, covering every cell of the 20 columns other than the
    timing column 6 exactly once; column 6 never appears. -/
theorem C4_zigzag_coverage :
    (iterate_over_grid 21).length = 420 ∧
    (iterate_over_grid 21).Nodup ∧
    (∀ p ∈ iterate_over_grid 21, InRangeC 21 p ∧ p.2 ≠ 6) ∧
    (∀ r : Nat, r < 21 → ∀ c : Nat, c < 21 → c ≠ 6 →
      ((r : Int), (c : Int)) ∈ iterate_over_grid 21) := by
  have hkeys : zigzagKeys.Nodup := zigzagKeys_perm.symm.nodup targetKeys_nodup
  refine ⟨by decide, List.Nodup.of_map _ hkeys, iterate_over_grid_inRange, ?_⟩
  intro r hr c hc hc6
  have hmem : r * 21 + c ∈ targetKeys := by
    refine List.mem_filter.mpr ⟨List.mem_range.mpr (by omega), ?_⟩
    refine decide_eq_true ?_
    omega
  have hmem2 : r * 21 + c ∈ zigzagKeys := zigzagKeys_perm.mem_iff.mpr hmem
  obtain ⟨p, hp, hkey⟩ := List.mem_map.mp hmem2
  obtain ⟨⟨h1, h2, h3, h4⟩, _⟩ := iterate_over_grid_inRange p hp
  have hpr : p.1 = (r : Int) ∧ p.2 = (c : Int) := by omega
  have : p = ((r : Int), (c : Int)) := Prod.ext hpr.1 hpr.2
  rw [← this]
  exact hp

theorem C4_zigzag_coverage_witness :
    (((20 : Int), (20 : Int)) ∈ iterate_over_grid 21) ∧
    (InRangeC 21 ((20 : Int), (19 : Int)) ∧ ((20 : Int), (19 : Int)).2 ≠ 6) :=
  ⟨C4_zigzag_coverage.2.2.2 20 (by decide) 20 (by decide) (by decide),
   C4_zigzag_coverage.2.2.1 (20, 19) (by decide)⟩
